import Mathlib

/-!
Verification development for the changelog-master server
(`server/index.ts`).  The TypeScript source is shallowly embedded below:
pure helpers become Lean functions, the SQLite tables become explicit
record lists, and the side-effecting pipeline threads an explicit state.
-/

namespace ChangelogMaster

/-! ## Line splitting and joining (JS `String.split` / `Array.join` with a newline) -/

/-- JS `markdown.split(newline)` over the character list. -/
def splitNlChars : List Char → List (List Char)
  | [] => [[]]
  | c :: cs =>
    if c = '\n' then [] :: splitNlChars cs
    else
      match splitNlChars cs with
      | [] => [[c]]
      | l :: ls => (c :: l) :: ls

/-- JS `markdown.split` on the newline character, producing the list of lines. -/
def splitLines (s : String) : List String :=
  (splitNlChars s.data).map String.mk

/-- JS `array.join` with a newline separator. -/
def joinNl : List String → String
  | [] => ""
  | [l] => l
  | l :: l' :: ls => l ++ "\n" ++ joinNl (l' :: ls)

/-! ## The version-header pattern

The source tests each line against the JS regular expression
`/^##[sp]+[?(d+.d+.d+(?:-[a-zA-Z0-9.]+)?)]?/` (with `[sp]` the whitespace
class and `d` the digit class), capturing the version token.  The regex is
deterministic (greedy matching never needs to backtrack across these
alternatives), so it is embedded as a direct maximal-munch scanner. -/

/-- JS regex class `d` (digits). -/
def isJsDigit (c : Char) : Bool :=
  '0' ≤ c && c ≤ '9'

/-- JS regex whitespace class: ASCII whitespace plus the Unicode space
separators, NBSP, BOM and the two line separators. -/
def isJsSpace (c : Char) : Bool :=
  c = ' ' || c = '\t' || c = '\n' || c = '\r' || c = '\x0b' || c = '\x0c' ||
  c = ' ' || c = ' ' ||
  (' ' ≤ c && c ≤ ' ') ||
  c = ' ' || c = ' ' || c = ' ' || c = ' ' ||
  c = '　' || c = '﻿'

/-- Character class `[a-zA-Z0-9.]` of the optional prerelease suffix. -/
def isSuffixChar (c : Char) : Bool :=
  isJsDigit c || ('a' ≤ c && c ≤ 'z') || ('A' ≤ c && c ≤ 'Z') || c = '.'

/-- The part `d+.d+.d+(?:-[a-zA-Z0-9.]+)?` of the pattern: returns the
captured characters and the rest of the line, or `none` when the pattern
fails to match here. -/
def versionToken (cs : List Char) : Option (List Char × List Char) :=
  let d1 := cs.takeWhile isJsDigit
  if d1.isEmpty then none else
  match cs.dropWhile isJsDigit with
  | '.' :: r1 =>
    let d2 := r1.takeWhile isJsDigit
    if d2.isEmpty then none else
    (match r1.dropWhile isJsDigit with
     | '.' :: r2 =>
       let d3 := r2.takeWhile isJsDigit
       if d3.isEmpty then none else
       let base := d1 ++ '.' :: d2 ++ '.' :: d3
       (match r2.dropWhile isJsDigit with
        | '-' :: r3 =>
          let sfx := r3.takeWhile isSuffixChar
          if sfx.isEmpty then some (base, '-' :: r3)
          else some (base ++ '-' :: sfx, r3.dropWhile isSuffixChar)
        | r3 => some (base, r3))
     | _ => none)
  | _ => none

/-- `line.match` against the version-header regex, returning the captured
group (the version token) when the line matches. -/
def matchVersionHeader (line : String) : Option String :=
  match line.data with
  | '#' :: '#' :: rest =>
    let sp := rest.takeWhile isJsSpace
    if sp.isEmpty then none
    else
      let afterSp := rest.dropWhile isJsSpace
      let afterBr := match afterSp with
        | '[' :: r => r
        | r => r
      match versionToken afterBr with
      | some (tok, _) => some (String.mk tok)
      | none => none
  | _ => none

/-! ## `parseLatestVersion` -/

/-- The loop of `parseLatestVersion`, with the mutable loop state
(`capturing`, `version`, `content`) made explicit. -/
def parseGo (capturing : Bool) (version : String) (content : List String) :
    List String → String × List String
  | [] => (version, content)
  | line :: rest =>
    match matchVersionHeader line with
    | some v =>
      if capturing then (version, content)
      else parseGo true v (content ++ [line]) rest
    | none =>
      if capturing then parseGo capturing version (content ++ [line]) rest
      else parseGo capturing version content rest

/-- `parseLatestVersion(markdown)`: extract the first version header and the
lines up to (excluding) the next version header. -/
def parseLatestVersion (markdown : String) : Option (String × String) :=
  let lines := splitLines markdown
  let r := parseGo false "" [] lines
  if r.1 = "" then none else some (r.1, joinNl r.2)

example : parseLatestVersion "intro\n## 2.0.74\nFix: bar\n## 2.0.73\nold" =
    some ("2.0.74", "## 2.0.74\nFix: bar") := by decide

example : parseLatestVersion "no headers here\njust text" = none := by decide

example : parseLatestVersion "## [1.2.3-beta.1] hello\nbody" =
    some ("1.2.3-beta.1", "## [1.2.3-beta.1] hello\nbody") := by decide

/-! ## Database model

The SQLite tables used by the monitoring pipeline, as record lists.
Row order in each list is insertion order; SQLite rowids increase with
insertion, `detected_at`/`created_at` defaults follow the wall clock, and
the queries below read rows back in that order. -/

/-- A row of `changelog_history`.  The table is created with
`version TEXT PRIMARY KEY` and later migrated with
`ALTER TABLE changelog_history ADD COLUMN source_id TEXT`; the primary key
therefore remains `version` alone, and `source_id` is nullable. -/
structure HistoryRow where
  version : String
  source_id : Option String
  notified : Bool
deriving DecidableEq, Repr

/-- A row of `changelog_sources`. -/
structure SourceRow where
  id : String
  name : String
  url : String
  is_active : Bool
  last_version : Option String
  last_checked_at : Option Nat
deriving DecidableEq, Repr

/-- A row of `audio_cache` (`id TEXT PRIMARY KEY`, indexed on
`(text_hash, voice)`). -/
structure AudioRow where
  id : String
  text_hash : String
  voice : String
  audio_data : List Nat
deriving DecidableEq, Repr

/-- The database state: the tables touched by the monitoring pipeline and
the audio/settings endpoints, plus the current wall-clock instant used for
`CURRENT_TIMESTAMP`. -/
structure Db where
  history : List HistoryRow
  sources : List SourceRow
  settings : List (String × String)
  audioCache : List AudioRow
  now : Nat
deriving DecidableEq, Repr

/-- `SELECT value FROM settings WHERE key = ?`. -/
def getSetting (db : Db) (key : String) : Option String :=
  (db.settings.find? (fun kv => kv.1 = key)).map (fun kv => kv.2)

/-- `INSERT OR REPLACE INTO settings (key, value) VALUES (?, ?)` (key is the
primary key). -/
def setSetting (db : Db) (key value : String) : Db :=
  if db.settings.any (fun kv => kv.1 = key) then
    { db with settings := db.settings.map (fun kv => if kv.1 = key then (key, value) else kv) }
  else
    { db with settings := db.settings ++ [(key, value)] }

/-- `SELECT * FROM changelog_sources WHERE is_active = 1`. -/
def getActiveSources (db : Db) : List SourceRow :=
  db.sources.filter (fun s => s.is_active)

/-- `getLastKnownVersion(sourceId)`: newest `changelog_history` row for the
source (`ORDER BY detected_at DESC LIMIT 1`). -/
def getLastKnownVersion (db : Db) (sourceId : String) : Option String :=
  ((db.history.filter (fun r => r.source_id = some sourceId)).getLast?).map
    (fun r => r.version)

/-- `saveVersion(version, sourceId)`: `INSERT OR IGNORE INTO
changelog_history (version, source_id)` — ignored whenever a row with the
same primary-key `version` already exists, whatever its `source_id` — then
`UPDATE changelog_sources SET last_version = ?, last_checked_at =
CURRENT_TIMESTAMP WHERE id = ?`. -/
def saveVersion (db : Db) (version sourceId : String) : Db :=
  let history :=
    if db.history.any (fun r => r.version = version) then db.history
    else db.history ++ [{ version := version, source_id := some sourceId, notified := false }]
  let sources := db.sources.map (fun s =>
    if s.id = sourceId then
      { s with last_version := some version, last_checked_at := some db.now }
    else s)
  { db with history := history, sources := sources }

/-- `markVersionNotified(version, sourceId)`: `UPDATE changelog_history SET
notified = 1 WHERE version = ? AND source_id = ?`. -/
def markVersionNotified (db : Db) (version sourceId : String) : Db :=
  { db with history := db.history.map (fun r =>
      if r.version = version ∧ r.source_id = some sourceId then
        { r with notified := true }
      else r) }

/-! ## `intervalToCron`

The source divides the millisecond interval by 60000 in JS float arithmetic
and compares the quotient against small integer constants; for integer
inputs those comparisons are exact, so the embedding works on the
milliseconds directly. -/

/-- JS `Math.round(ms / 60000)`: round half toward positive infinity. -/
def jsRoundMinutes (ms : Int) : Int :=
  Int.fdiv (2 * ms + 60000) 120000

/-- `intervalToCron(intervalMs)`: fixed lookup table on exact minute values,
`null` for non-positive input, otherwise the every-N-minutes fallback. -/
def intervalToCron (intervalMs : Int) : Option String :=
  if intervalMs ≤ 0 then none
  else if intervalMs = 1 * 60000 then some "* * * * *"
  else if intervalMs = 5 * 60000 then some "*/5 * * * *"
  else if intervalMs = 15 * 60000 then some "*/15 * * * *"
  else if intervalMs = 30 * 60000 then some "*/30 * * * *"
  else if intervalMs = 60 * 60000 then some "0 * * * *"
  else if intervalMs = 360 * 60000 then some "0 */6 * * *"
  else if intervalMs = 720 * 60000 then some "0 */12 * * *"
  else if intervalMs = 1440 * 60000 then some "0 0 * * *"
  else if intervalMs = 10080 * 60000 then some "0 0 * * 0"
  else if intervalMs = 20160 * 60000 then some "0 0 1,15 * *"
  else some ("*/" ++ toString (max 1 (jsRoundMinutes intervalMs)) ++ " * * * *")

example : intervalToCron 60000 = some "* * * * *" := by decide
example : intervalToCron (1440 * 60000) = some "0 0 * * *" := by decide
example : intervalToCron 90000 = some "*/2 * * * *" := by decide
example : intervalToCron 0 = none := by decide

/-! ## `pcmToWav` -/

/-- Buffer `writeUInt32LE`: the four little-endian bytes of a 32-bit value. -/
def u32le (n : Nat) : List Nat :=
  [n % 256, n / 256 % 256, n / 65536 % 256, n / 16777216 % 256]

/-- Buffer `writeUInt16LE`: the two little-endian bytes of a 16-bit value. -/
def u16le (n : Nat) : List Nat :=
  [n % 256, n / 256 % 256]

def sampleRate : Nat := 24000
def numChannels : Nat := 1
def bitsPerSample : Nat := 16
def byteRate : Nat := sampleRate * numChannels * (bitsPerSample / 8)
def blockAlign : Nat := numChannels * (bitsPerSample / 8)

/-- `pcmToWav(pcmData)`: the fixed 44-byte canonical WAV header followed by
the PCM payload.  Bytes are modelled as natural numbers below 256; the four
ASCII tags are written out as their byte values. -/
def pcmToWav (pcmData : List Nat) : List Nat :=
  let dataSize := pcmData.length
  [82, 73, 70, 70] ++
  u32le (36 + dataSize) ++
  [87, 65, 86, 69] ++
  [102, 109, 116, 32] ++
  u32le 16 ++
  u16le 1 ++
  u16le numChannels ++
  u32le sampleRate ++
  u32le byteRate ++
  u16le blockAlign ++
  u16le bitsPerSample ++
  [100, 97, 116, 97] ++
  u32le dataSize ++
  pcmData

example : (pcmToWav [7, 8]).length = 46 := by decide
example : (pcmToWav [7, 8]).take 4 = [82, 73, 70, 70] := by decide

/-! ## Analysis result and email rendering

The decorative glyph strings in the source file are mojibake byte
sequences; the constants below hold exactly the characters present in the
source. -/

structure Removal where
  feature : String
  severity : String
  why : String
deriving DecidableEq, Repr

structure Categories where
  critical_breaking_changes : List String
  removals : List Removal
  major_features : List String
  important_fixes : List String
  new_slash_commands : List String
  terminal_improvements : List String
  api_changes : List String
deriving DecidableEq, Repr

/-- The `ChangelogEmailRequest` shape returned by the analyzer. -/
structure ChangelogEmailRequest where
  version : String
  tldr : String
  categories : Categories
  action_items : List String
  sentiment : String
deriving DecidableEq, Repr

def emojiNew : String := "üÜï"
def emojiPositive : String := "üéâ"
def emojiWarning : String := "‚ö†Ô∏è"
def emojiClipboard : String := "üìã"
def emojiSiren : String := "üö®"
def emojiSparkles : String := "‚ú®"
def emojiWrench : String := "üîß"
def emojiHeadphone : String := "üéß"

/-- The fixed opening of the email template, up to and including the
`<h1>` opening tag (braces and apostrophes of the CSS written as byte
escapes). -/
def emailHtmlHead : String :=
  "\n<!DOCTYPE html>\n<html>\n<head>\n  <meta charset=\"utf-8\">\n  <meta name=\"viewport\" content=\"width=device-width, initial-scale=1.0\">\n  <style>\n    body \x7b font-family: -apple-system, BlinkMacSystemFont, \x27Segoe UI\x27, Roboto, sans-serif; line-height: 1.6; color: #333; max-width: 600px; margin: 0 auto; padding: 20px; \x7d\n    h1 \x7b color: #d97706; \x7d\n    h2 \x7b color: #374151; margin-top: 24px; \x7d\n    .tldr \x7b background: #fef3c7; padding: 16px; border-radius: 8px; margin-bottom: 24px; \x7d\n    .section \x7b margin-bottom: 20px; \x7d\n    .breaking \x7b border-left: 4px solid #ef4444; padding-left: 12px; background: #fef2f2; padding: 12px; border-radius: 0 8px 8px 0; \x7d\n    .feature \x7b border-left: 4px solid #14b8a6; padding-left: 12px; \x7d\n    .fix \x7b border-left: 4px solid #6b7280; padding-left: 12px; \x7d\n    ul \x7b padding-left: 20px; \x7d\n    li \x7b margin-bottom: 8px; \x7d\n    .audio-note \x7b background: #e0f2fe; padding: 12px; border-radius: 8px; margin-top: 16px; \x7d\n    .footer \x7b margin-top: 32px; padding-top: 16px; border-top: 1px solid #e5e7eb; font-size: 14px; color: #6b7280; \x7d\n  </style>\n</head>\n<body>\n  <h1>"

/-- The fixed closing of the email template (audio note and footer). -/
def emailHtmlFooter : String :=
  "\n  <div class=\"audio-note\">\n    " ++ emojiHeadphone ++
  " <strong>Audio summary attached!</strong> Listen to the changelog summary on the go.\n  </div>\n\n  <div class=\"footer\">\n    <p>This email was automatically sent by Claude Code Changelog Tracker</p>\n  </div>\n</body>\n</html>\n"

/-- `generateEmailHtml(data)`. -/
def generateEmailHtml (data : ChangelogEmailRequest) : String :=
  let version := data.version
  let tldr := data.tldr
  let categories := data.categories
  let action_items := data.action_items
  let sentiment := data.sentiment
  let sentimentEmoji :=
    if sentiment = "positive" then emojiPositive
    else if sentiment = "critical" then emojiWarning
    else emojiClipboard
  let html :=
    emailHtmlHead ++ sentimentEmoji ++ " Claude Code " ++ version ++
    " Released</h1>\n\n  <div class=\"tldr\">\n    <strong>TL;DR:</strong> " ++
    tldr ++ "\n  </div>\n"
  let html := html ++
    (if categories.critical_breaking_changes.length > 0 then
      "\n  <div class=\"section breaking\">\n    <h2>" ++ emojiSiren ++
      " Critical Breaking Changes</h2>\n    <ul>\n      " ++
      String.join (categories.critical_breaking_changes.map
        (fun item => "<li>" ++ item ++ "</li>")) ++
      "\n    </ul>\n  </div>\n"
    else "")
  let html := html ++
    (if categories.removals.length > 0 then
      "\n  <div class=\"section\">\n    <h2>" ++ emojiWarning ++
      " Removals</h2>\n    <ul>\n      " ++
      String.join (categories.removals.map
        (fun r => "<li><strong>" ++ r.feature ++ "</strong> (" ++ r.severity ++
                  "): " ++ r.why ++ "</li>")) ++
      "\n    </ul>\n  </div>\n"
    else "")
  let html := html ++
    (if categories.major_features.length > 0 then
      "\n  <div class=\"section feature\">\n    <h2>" ++ emojiSparkles ++
      " Major Features</h2>\n    <ul>\n      " ++
      String.join (categories.major_features.map
        (fun item => "<li>" ++ item ++ "</li>")) ++
      "\n    </ul>\n  </div>\n"
    else "")
  let html := html ++
    (if categories.important_fixes.length > 0 then
      "\n  <div class=\"section fix\">\n    <h2>" ++ emojiWrench ++
      " Important Fixes</h2>\n    <ul>\n      " ++
      String.join (categories.important_fixes.map
        (fun item => "<li>" ++ item ++ "</li>")) ++
      "\n    </ul>\n  </div>\n"
    else "")
  let html := html ++
    (if action_items.length > 0 then
      "\n  <div class=\"section\">\n    <h2>" ++ emojiClipboard ++
      " Action Items</h2>\n    <ul>\n      " ++
      String.join (action_items.map (fun item => "<li>" ++ item ++ "</li>")) ++
      "\n    </ul>\n  </div>\n"
    else "")
  html ++ emailHtmlFooter

/-! ## The external world and the effect log

The four outbound calls (fetch, analyze, synthesize, mail) are modelled as
oracles in an environment record; an `Except` result stands for a rejected
promise (a raised fault).  The effect log records every external AI/TTS/mail
call actually made, so frame claims about calls that must not happen become
statements about the log. -/

/-- The payload handed to the mail transport. -/
structure EmailPayload where
  subject : String
  html : String
  attachments : List (String × List Nat)
deriving DecidableEq, Repr

/-- Environment: configured API keys and the behaviour of the external
services.  An `Except.error` result models a raised (rejected) fault. -/
structure Env where
  geminiKey : Option String
  resendKey : Option String
  notifyEmail : Option String
  fetchResult : String → Except String String
  analyzeResult : String → Except String (Option ChangelogEmailRequest)
  ttsResult : String → String → Except String (Option (List Nat))
  sendResult : EmailPayload → Except String Bool

/-- Log of the external calls performed so far. -/
structure Effects where
  analyzeCalls : List String
  ttsCalls : List (String × String)
  emails : List EmailPayload
  sendResults : List Bool
deriving DecidableEq, Repr

/-- `analyzeChangelog(changelogText)`: no call at all without an API key;
otherwise one Analyzer call whose outcome the environment decides. -/
def analyzeChangelog (env : Env) (eff : Effects) (changelogText : String) :
    Effects × Except String (Option ChangelogEmailRequest) :=
  match env.geminiKey with
  | none => (eff, Except.ok none)
  | some _ =>
    let eff := { eff with analyzeCalls := eff.analyzeCalls ++ [changelogText] }
    (eff, env.analyzeResult changelogText)

/-- `generateTTSAudio(text, voice)`: no call without an API key; on a
successful synthesis the raw PCM is wrapped through `pcmToWav`. -/
def generateTTSAudio (env : Env) (eff : Effects) (text voice : String) :
    Effects × Except String (Option (List Nat)) :=
  match env.geminiKey with
  | none => (eff, Except.ok none)
  | some _ =>
    let eff := { eff with ttsCalls := eff.ttsCalls ++ [(text, voice)] }
    match env.ttsResult text voice with
    | Except.error e => (eff, Except.error e)
    | Except.ok none => (eff, Except.ok none)
    | Except.ok (some pcm) => (eff, Except.ok (some (pcmToWav pcm)))

/-- `sendEmailWithAttachment(data, audioBuffer)`: returns `false` without
mail configuration; otherwise renders the HTML, posts the payload and
returns the transport verdict. -/
def sendEmailWithAttachment (env : Env) (eff : Effects)
    (data : ChangelogEmailRequest) (audioBuffer : Option (List Nat)) :
    Effects × Except String Bool :=
  if env.resendKey = none ∨ env.notifyEmail = none then (eff, Except.ok false)
  else
    let html := generateEmailHtml data
    let payload : EmailPayload :=
      { subject := emojiNew ++ " Claude Code " ++ data.version ++ " Released"
        html := html
        attachments :=
          match audioBuffer with
          | some buf => [("claude-code-" ++ data.version ++ "-summary.wav", buf)]
          | none => [] }
    let eff := { eff with emails := eff.emails ++ [payload] }
    match env.sendResult payload with
    | Except.error e => (eff, Except.error e)
    | Except.ok ok => ({ eff with sendResults := eff.sendResults ++ [ok] }, Except.ok ok)

/-! ## The per-source cycle and the multi-source batch -/

/-- The body of `checkSourceForNewChangelog` (everything inside its `try`
block).  The second component reports whether a fault escaped the body; the
first component is the state reached when the fault (if any) was raised,
since completed database writes persist. -/
def checkSourceBody (env : Env) (db : Db) (eff : Effects) (source : SourceRow) :
    (Db × Effects) × Except String Unit :=
  match env.fetchResult source.url with
  | Except.error e => ((db, eff), Except.error e)
  | Except.ok markdown =>
    match parseLatestVersion markdown with
    | none => ((db, eff), Except.ok ())
    | some latest =>
      if getLastKnownVersion db source.id = some latest.1 then
        ((db, eff), Except.ok ())
      else
        let db := saveVersion db latest.1 source.id
        if getSetting db "emailNotificationsEnabled" ≠ some "true" then
          ((db, eff), Except.ok ())
        else
          match analyzeChangelog env eff latest.2 with
          | (eff, Except.error e) => ((db, eff), Except.error e)
          | (eff, Except.ok none) => ((db, eff), Except.ok ())
          | (eff, Except.ok (some analysis0)) =>
            let analysis := { analysis0 with version := source.name ++ " " ++ latest.1 }
            let voice :=
              match getSetting db "notificationVoice" with
              | some v => if v = "" then "Charon" else v
              | none => "Charon"
            match generateTTSAudio env eff analysis.tldr voice with
            | (eff, Except.error e) => ((db, eff), Except.error e)
            | (eff, Except.ok audioBuffer) =>
              match sendEmailWithAttachment env eff analysis audioBuffer with
              | (eff, Except.error e) => ((db, eff), Except.error e)
              | (eff, Except.ok sent) =>
                if sent then
                  ((markVersionNotified db latest.1 source.id, eff), Except.ok ())
                else ((db, eff), Except.ok ())

/-- `checkSourceForNewChangelog(source)`: the body wrapped in the
`try`/`catch` — any fault is caught and logged, the state reached so far is
kept, and nothing propagates. -/
def checkSourceForNewChangelog (env : Env) (p : Db × Effects) (source : SourceRow) :
    Db × Effects :=
  (checkSourceBody env p.1 p.2 source).1

/-- `checkForNewChangelog()`: snapshot the active sources, return early when
there are none, otherwise run the per-source cycle on each in order. -/
def checkForNewChangelog (env : Env) (p : Db × Effects) : Db × Effects :=
  match getActiveSources p.1 with
  | [] => p
  | s :: ss =>
    (s :: ss).foldl (fun q source => checkSourceForNewChangelog env q source) p

/-! ## Scheduler state, settings endpoint, audio endpoints -/

/-- The two module-level mutable cells `cronJob` and
`currentCronExpression`; the scheduled task handle is abstracted to the
expression it was scheduled with. -/
structure Sched where
  cronJob : Option String
  currentCronExpression : Option String
deriving DecidableEq, Repr

/-- Full server state: database, external-effect log, scheduler cells. -/
structure St where
  db : Db
  eff : Effects
  sched : Sched
deriving Repr

/-- `stopMonitoring()`: tear down the trigger when one exists; idempotent. -/
def stopMonitoring (st : St) : St :=
  match st.sched.cronJob with
  | some _ => { st with sched := { cronJob := none, currentCronExpression := none } }
  | none => st

/-- `startMonitoring(intervalMs)`: stop any prior trigger, translate the
interval, and when a trigger expression exists record it, run one immediate
check and schedule the recurring job. -/
def startMonitoring (env : Env) (st : St) (intervalMs : Int) : St :=
  let st := stopMonitoring st
  match intervalToCron intervalMs with
  | none => st
  | some cronExpression =>
    let st := { st with sched := { st.sched with currentCronExpression := some cronExpression } }
    let p := checkForNewChangelog env (st.db, st.eff)
    let st := { st with db := p.1, eff := p.2 }
    { st with sched := { st.sched with cronJob := some cronExpression } }

/-- JS `parseInt` (radix unspecified): skip leading whitespace, optional
sign, an optional hex prefix, then the longest digit run; `none` is NaN. -/
def parseIntJs (s : String) : Option Int :=
  let cs := s.data.dropWhile isJsSpace
  let signed : Int × List Char :=
    match cs with
    | '-' :: rest => (-1, rest)
    | '+' :: rest => (1, rest)
    | rest => (1, rest)
  let digits10 (ds : List Char) : Nat :=
    ds.foldl (fun a c => a * 10 + (c.toNat - 48)) 0
  let isHexDigit (c : Char) : Bool :=
    isJsDigit c || ('a' ≤ c && c ≤ 'f') || ('A' ≤ c && c ≤ 'F')
  let hexVal (c : Char) : Nat :=
    if isJsDigit c then c.toNat - 48
    else if 'a' ≤ c && c ≤ 'f' then c.toNat - 87
    else c.toNat - 55
  let digits16 (ds : List Char) : Nat :=
    ds.foldl (fun a c => a * 16 + hexVal c) 0
  match signed.2 with
  | '0' :: 'x' :: rest =>
    let ds := rest.takeWhile isHexDigit
    if ds.isEmpty then none else some (signed.1 * Int.ofNat (digits16 ds))
  | '0' :: 'X' :: rest =>
    let ds := rest.takeWhile isHexDigit
    if ds.isEmpty then none else some (signed.1 * Int.ofNat (digits16 ds))
  | other =>
    let ds := other.takeWhile isJsDigit
    if ds.isEmpty then none else some (signed.1 * Int.ofNat (digits10 ds))

/-- The interval read in the settings handler:
`parseInt(intervalRow?.value || chr48) || 0` — a missing or empty stored
value falls back to the zero string, and a NaN parse falls back to 0. -/
def readIntervalSetting (db : Db) : Int :=
  let raw :=
    match getSetting db "notificationCheckInterval" with
    | some v => if v = "" then "0" else v
    | none => "0"
  match parseIntJs raw with
  | some n => n
  | none => 0

/-- `POST /api/settings/:key`: store the value, and for either of the two
monitoring keys re-derive the scheduler state from both stored settings. -/
def postSettingsKey (env : Env) (st : St) (key value : String) : St :=
  let st := { st with db := setSetting st.db key value }
  if key = "emailNotificationsEnabled" ∨ key = "notificationCheckInterval" then
    let enabledRow := getSetting st.db "emailNotificationsEnabled"
    let interval := readIntervalSetting st.db
    if enabledRow = some "true" ∧ 0 < interval then startMonitoring env st interval
    else stopMonitoring st
  else st

/-- `POST /api/audio`: `INSERT OR REPLACE INTO audio_cache` keyed by the
primary key `id`, which embeds `Date.now()`; a replaced row is deleted and
re-inserted with a fresh rowid. -/
def postAudio (db : Db) (textHash voice : String) (audioData : List Nat)
    (nowMs : Nat) : Db :=
  let id := textHash ++ "_" ++ voice ++ "_" ++ toString nowMs
  { db with audioCache :=
      (db.audioCache.filter (fun r => r.id ≠ id)) ++
      [{ id := id, text_hash := textHash, voice := voice, audio_data := audioData }] }

/-- `GET /api/audio/:textHash/:voice`: `SELECT audio_data FROM audio_cache
WHERE text_hash = ? AND voice = ?` with a single-row `get` and no `ORDER
BY`; rows come back in rowid (insertion) order, so the first matching row
is the oldest. -/
def getAudio (db : Db) (textHash voice : String) : Option (List Nat) :=
  ((db.audioCache.filter (fun r => r.text_hash = textHash ∧ r.voice = voice)).head?).map
    (fun r => r.audio_data)

/-! # Theorems for the claims -/

/-! ## C7: WAV container layout -/

/-- C7: for every PCM input of N bytes, `pcmToWav` returns exactly 44+N
bytes: the RIFF tag, the little-endian chunk size 36+N, the WAVE and fmt
tags, PCM format code 1, 1 channel, 24000 Hz, byte rate 48000, block align
2, 16 bits per sample, the data-chunk size field N at bytes 40..44, and the
unmodified PCM payload as the final N bytes. -/
theorem pcmToWav_layout (pcm : List Nat) :
    (pcmToWav pcm).length = 44 + pcm.length ∧
    (pcmToWav pcm).take 4 = [82, 73, 70, 70] ∧
    ((pcmToWav pcm).drop 4).take 4 = u32le (36 + pcm.length) ∧
    ((pcmToWav pcm).drop 8).take 4 = [87, 65, 86, 69] ∧
    ((pcmToWav pcm).drop 12).take 4 = [102, 109, 116, 32] ∧
    ((pcmToWav pcm).drop 20).take 2 = u16le 1 ∧
    ((pcmToWav pcm).drop 22).take 2 = u16le 1 ∧
    ((pcmToWav pcm).drop 24).take 4 = u32le 24000 ∧
    ((pcmToWav pcm).drop 28).take 4 = u32le 48000 ∧
    ((pcmToWav pcm).drop 32).take 2 = u16le 2 ∧
    ((pcmToWav pcm).drop 34).take 2 = u16le 16 ∧
    ((pcmToWav pcm).drop 36).take 4 = [100, 97, 116, 97] ∧
    ((pcmToWav pcm).drop 40).take 4 = u32le pcm.length ∧
    (pcmToWav pcm).drop 44 = pcm := by
  refine ⟨?_, ?_, ?_, ?_, ?_, ?_, ?_, ?_, ?_, ?_, ?_, ?_, ?_, ?_⟩ <;>
    simp [pcmToWav, u32le, u16le, sampleRate, numChannels, bitsPerSample,
      byteRate, blockAlign, List.take_succ_cons, List.drop_succ_cons] <;>
    omega

/-! ## C4: `intervalToCron` on 60000 ms -/

/-- C4 counterexample: 60000 milliseconds is one minute, so `intervalToCron`
returns the every-minute expression, not the every-hour expression the
claim asserts. -/
theorem intervalToCron_60000_counterexample :
    intervalToCron 60000 = some "* * * * *" ∧
    intervalToCron 60000 ≠ some "0 * * * *" := by decide

/-- C4 amended: `intervalToCron` maps 60000 ms to the every-minute
expression (3600000 ms maps to the every-hour expression), maps 1440
minutes to the once-daily-at-midnight expression, returns no trigger for
zero or negative input, and any other positive value falls back to an
every-N-minutes expression with N = round(ms/60000), minimum 1. -/
theorem intervalToCron_mapping :
    intervalToCron 60000 = some "* * * * *" ∧
    intervalToCron 3600000 = some "0 * * * *" ∧
    intervalToCron (1440 * 60000) = some "0 0 * * *" ∧
    (∀ ms : Int, ms ≤ 0 → intervalToCron ms = none) ∧
    (∀ ms : Int, 0 < ms →
      ms ∉ ([60000, 300000, 900000, 1800000, 3600000, 21600000, 43200000,
             86400000, 604800000, 1209600000] : List Int) →
      intervalToCron ms =
        some ("*/" ++ toString (max 1 (jsRoundMinutes ms)) ++ " * * * *")) := by
  refine ⟨by decide, by decide, by decide, ?_, ?_⟩
  · intro ms h
    unfold intervalToCron
    rw [if_pos h]
  · intro ms hpos hnot
    simp only [List.mem_cons, List.not_mem_nil, or_false] at hnot
    push_neg at hnot
    obtain ⟨h1, h2, h3, h4, h5, h6, h7, h8, h9, h10⟩ := hnot
    unfold intervalToCron
    repeat rw [if_neg (by omega)]

/-- C4 witness: the universally quantified parts of the amended mapping at
concrete inputs. -/
theorem intervalToCron_mapping_witness :
    intervalToCron (-5) = none ∧ intervalToCron 180000 = some "*/3 * * * *" := by
  constructor
  · exact intervalToCron_mapping.2.2.2.1 (-5) (by decide)
  · have h := intervalToCron_mapping.2.2.2.2 180000 (by decide) (by decide)
    simpa using h

/-! ## C1: history rows under two sources sharing a version string -/

/-- An empty database. -/
def emptyDb : Db :=
  { history := [], sources := [], settings := [], audioCache := [], now := 0 }

def sourceA : SourceRow :=
  { id := "srcA", name := "Claude Code", url := "https://a.example/CHANGELOG.md",
    is_active := true, last_version := none, last_checked_at := none }

def sourceB : SourceRow :=
  { id := "srcB", name := "VS Code", url := "https://b.example/CHANGELOG.md",
    is_active := true, last_version := none, last_checked_at := none }

def twoSourceDb : Db := { emptyDb with sources := [sourceA, sourceB] }

/-- C1 fails on the code: `changelog_history` keeps `version` alone as its
primary key, so recording version 1.0.0 for source `srcB` after source
`srcA` is silently ignored — only the `srcA` row remains, `srcB` never
acquires a history row, and the per-source last-known lookup for `srcB`
stays empty.  Re-inserting the already present `(1.0.0, srcA)` pair is
indeed a no-op on the history store. -/
theorem saveVersion_one_row_per_version :
    (saveVersion (saveVersion twoSourceDb "1.0.0" "srcA") "1.0.0" "srcB").history =
      [{ version := "1.0.0", source_id := some "srcA", notified := false }] ∧
    getLastKnownVersion
      (saveVersion (saveVersion twoSourceDb "1.0.0" "srcA") "1.0.0" "srcB") "srcB" = none ∧
    (saveVersion (saveVersion (saveVersion twoSourceDb "1.0.0" "srcA") "1.0.0" "srcB")
        "1.0.0" "srcA").history =
      (saveVersion (saveVersion twoSourceDb "1.0.0" "srcA") "1.0.0" "srcB").history := by
  decide

/-! ## C9: audio cache rows under repeated saves of one (textHash, voice) -/

/-- C9 fails on the code: the `audio_cache` primary key embeds the save
instant, so two saves of the same `(textHash, voice)` at different instants
produce two distinct rows (the `INSERT OR REPLACE` never fires), and the
`ORDER BY`-less lookup reads back the first-inserted payload, not the most
recently saved one. -/
theorem postAudio_duplicate_rows :
    ((postAudio (postAudio emptyDb "h" "v" [1] 1) "h" "v" [2] 2)).audioCache.length = 2 ∧
    getAudio (postAudio (postAudio emptyDb "h" "v" [1] 1) "h" "v" [2] 2) "h" "v" = some [1] ∧
    getAudio (postAudio (postAudio emptyDb "h" "v" [1] 1) "h" "v" [2] 2) "h" "v" ≠ some [2] := by
  decide

/-! ## C2: `parseLatestVersion` against its line-level specification -/

/-- Once capturing, the loop accumulates exactly the lines before the next
version header. -/
theorem parseGo_capturing (v : String) (ls : List String) :
    ∀ c : List String,
      parseGo true v c ls =
        (v, c ++ ls.takeWhile (fun l => (matchVersionHeader l).isNone)) := by
  induction ls with
  | nil => intro c; simp [parseGo]
  | cons l rest ih =>
    intro c
    cases h : matchVersionHeader l with
    | some w => simp [parseGo, h, List.takeWhile_cons]
    | none => simp [parseGo, h, List.takeWhile_cons, ih]

/-- Before capturing, the loop skips exactly the lines with no version
header, then captures from the first header on. -/
theorem parseGo_skip (ls : List String) :
    parseGo false "" [] ls =
      match ls.dropWhile (fun l => (matchVersionHeader l).isNone) with
      | [] => ("", [])
      | hd :: tl =>
        ((matchVersionHeader hd).getD "",
         hd :: tl.takeWhile (fun l => (matchVersionHeader l).isNone)) := by
  induction ls with
  | nil => simp [parseGo]
  | cons l rest ih =>
    cases h : matchVersionHeader l with
    | some w =>
      simp [parseGo, h, List.dropWhile_cons, parseGo_capturing]
    | none =>
      simp [parseGo, h, List.dropWhile_cons, ih]

/-- Head of a `dropWhile` result fails the predicate. -/
theorem dropWhile_head_false {α : Type} (p : α → Bool) (l : List α) (hd : α)
    (tl : List α) (h : l.dropWhile p = hd :: tl) : p hd = false := by
  induction l with
  | nil => simp [List.dropWhile] at h
  | cons a as ih =>
    rw [List.dropWhile_cons] at h
    by_cases hp : p a
    · rw [if_pos hp] at h; exact ih h
    · rw [if_neg hp] at h
      cases h
      simpa using hp

/-- A successful `versionToken` capture is a non-empty character list. -/
theorem versionToken_ne_nil (cs tok rest : List Char)
    (h : versionToken cs = some (tok, rest)) : tok ≠ [] := by
  unfold versionToken at h
  dsimp only at h
  repeat' split at h
  all_goals try exact Option.noConfusion h
  all_goals injection h with h1
  all_goals injection h1 with h2 h3
  all_goals rw [← h2]
  all_goals simp

/-- A captured version token is a non-empty string. -/
theorem matchVersionHeader_ne_empty (l : String) (v : String)
    (h : matchVersionHeader l = some v) : v ≠ "" := by
  unfold matchVersionHeader at h
  dsimp only at h
  repeat' split at h
  all_goals try exact Option.noConfusion h
  all_goals injection h with h1
  all_goals rw [← h1]
  all_goals rename_i heq
  all_goals intro hempty
  all_goals exact versionToken_ne_nil _ _ _ heq (by simpa using congrArg String.data hempty)

/-- C2: `parseLatestVersion` returns `none` exactly when no line of the
document matches the version-header pattern; otherwise it returns the token
of the first matching header line together with the lines from that header
(inclusive) up to but excluding the next matching header line (or the end
of the document), joined by newlines. -/
theorem parseLatestVersion_spec (md : String) :
    parseLatestVersion md =
      match (splitLines md).dropWhile (fun l => (matchVersionHeader l).isNone) with
      | [] => none
      | hd :: tl =>
        match matchVersionHeader hd with
        | some v =>
          some (v, joinNl (hd :: tl.takeWhile (fun l => (matchVersionHeader l).isNone)))
        | none => none := by
  simp only [parseLatestVersion]
  rw [parseGo_skip]
  cases hdw : (splitLines md).dropWhile (fun l => (matchVersionHeader l).isNone) with
  | nil => simp
  | cons hd tl =>
    have hfalse := dropWhile_head_false _ _ _ _ hdw
    cases hv : matchVersionHeader hd with
    | none => simp [hv] at hfalse
    | some v =>
      have hne := matchVersionHeader_ne_empty hd v hv
      simp [hv, hne]

/-! ## C3: sequential batch with per-source containment -/

/-- C3: the multi-source batch visits every active source in order, folding
the caught per-source cycle over the snapshot of active sources (it is a
total function, so it never throws); and whenever the cycle body of a source
raises a fault, the caught cycle still returns the state that body reached,
so the fold continues with the remaining sources. -/
theorem checkForNewChangelog_sequential :
    (∀ (env : Env) (p : Db × Effects),
      checkForNewChangelog env p =
        (getActiveSources p.1).foldl
          (fun q source => checkSourceForNewChangelog env q source) p) ∧
    (∀ (env : Env) (p : Db × Effects) (source : SourceRow) (e : String),
      (checkSourceBody env p.1 p.2 source).2 = Except.error e →
      checkSourceForNewChangelog env p source = (checkSourceBody env p.1 p.2 source).1) := by
  constructor
  · intro env p
    unfold checkForNewChangelog
    cases h : getActiveSources p.1 with
    | nil => simp
    | cons s ss => rfl
  · intro env p source e _
    rfl

def emptyEff : Effects :=
  { analyzeCalls := [], ttsCalls := [], emails := [], sendResults := [] }

/-- An environment whose fetches always fail with a network fault. -/
def envFetchFail : Env :=
  { geminiKey := none, resendKey := none, notifyEmail := none,
    fetchResult := fun _ => Except.error "network down",
    analyzeResult := fun _ => Except.ok none,
    ttsResult := fun _ _ => Except.ok none,
    sendResult := fun _ => Except.ok false }

/-- C3 witness: a source whose fetch faults is contained — the caught cycle
returns the pre-cycle state. -/
theorem checkForNewChangelog_sequential_witness :
    checkSourceForNewChangelog envFetchFail (twoSourceDb, emptyEff) sourceA =
      (twoSourceDb, emptyEff) := by
  rw [checkForNewChangelog_sequential.2 envFetchFail (twoSourceDb, emptyEff) sourceA
    "network down" rfl]
  rfl

/-! ## C5: gate closed — version recorded, no external calls -/

/-- C5: when the fetched document parses to a version different from the
last known one for the source and `emailNotificationsEnabled` is not the
string true, the cycle performs exactly the record step — the history row
is appended (the version being previously unseen) and the fields
`last_version`/`last_checked_at` of the source row are updated — and returns with the
external-effect log untouched: no Analyzer, TTS or Mailer call. -/
theorem checkSource_gate_no_external_calls
    (env : Env) (p : Db × Effects) (source : SourceRow)
    (markdown v c : String)
    (hfetch : env.fetchResult source.url = Except.ok markdown)
    (hparse : parseLatestVersion markdown = some (v, c))
    (hnew : ¬ getLastKnownVersion p.1 source.id = some v)
    (hfresh : ∀ r ∈ p.1.history, ¬ r.version = v)
    (hgate : ¬ getSetting p.1 "emailNotificationsEnabled" = some "true") :
    checkSourceForNewChangelog env p source = (saveVersion p.1 v source.id, p.2) ∧
    (saveVersion p.1 v source.id).history =
      p.1.history ++ [{ version := v, source_id := some source.id, notified := false }] ∧
    (saveVersion p.1 v source.id).sources =
      p.1.sources.map (fun s =>
        if s.id = source.id then
          { s with last_version := some v, last_checked_at := some p.1.now }
        else s) := by
  have hgate' : ¬ getSetting (saveVersion p.1 v source.id) "emailNotificationsEnabled" =
      some "true" := hgate
  have hany : p.1.history.any (fun r => r.version = v) = false := by
    rw [List.any_eq_false]
    intro r hr
    simpa using hfresh r hr
  refine ⟨?_, ?_, rfl⟩
  · simp only [checkSourceForNewChangelog, checkSourceBody, hfetch, hparse]
    rw [if_neg hnew, if_pos hgate']
  · simp [saveVersion, hany]

/-- An environment that fetches a one-version changelog, with all keys
configured. -/
def envGate : Env :=
  { geminiKey := some "k", resendKey := some "rk", notifyEmail := some "mail@example.com",
    fetchResult := fun _ => Except.ok "## 1.0.0\nhello",
    analyzeResult := fun _ => Except.ok none,
    ttsResult := fun _ _ => Except.ok none,
    sendResult := fun _ => Except.ok true }

/-- C5 witness: with no `emailNotificationsEnabled` setting stored, the
cycle on a fresh version is exactly the record step. -/
theorem checkSource_gate_no_external_calls_witness :
    checkSourceForNewChangelog envGate (twoSourceDb, emptyEff) sourceA =
      (saveVersion twoSourceDb "1.0.0" "srcA", emptyEff) := by
  have h := checkSource_gate_no_external_calls envGate (twoSourceDb, emptyEff) sourceA
    "## 1.0.0\nhello" "1.0.0" "## 1.0.0\nhello" rfl (by decide) (by decide)
    (by decide) (by decide)
  exact h.1

/-! ## A characterization of the per-source cycle (shared by later claims) -/

/-- The email payload the cycle builds for analyzer output `a0` on version
`v` of a source, after overwriting the analysis version with the
source-qualified version string. -/
def builtPayload (source : SourceRow) (v : String) (a0 : ChangelogEmailRequest)
    (att : List (String × List Nat)) : EmailPayload :=
  { subject := emojiNew ++ " Claude Code " ++ (source.name ++ " " ++ v) ++ " Released"
    html := generateEmailHtml { a0 with version := source.name ++ " " ++ v }
    attachments := att }

/-- Exhaustive description of what one caught cycle can do to the database
and to the email/send portion of the effect log: either nothing, or the
record step alone, or the record step plus one attempted email whose
payload is `builtPayload`, with the history marked notified exactly when
the transport reported success. -/
theorem checkSourceBody_master (env : Env) (db : Db) (eff : Effects) (source : SourceRow) :
    ((checkSourceBody env db eff source).1 = (db, eff)) ∨
    (∃ markdown v c,
      env.fetchResult source.url = Except.ok markdown ∧
      parseLatestVersion markdown = some (v, c) ∧
      (((checkSourceBody env db eff source).1.1 = saveVersion db v source.id ∧
        (checkSourceBody env db eff source).1.2.emails = eff.emails ∧
        (checkSourceBody env db eff source).1.2.sendResults = eff.sendResults) ∨
       (∃ a0 att,
         (checkSourceBody env db eff source).1.2.emails =
           eff.emails ++ [builtPayload source v a0 att] ∧
         (((checkSourceBody env db eff source).1.1 = saveVersion db v source.id ∧
           ((checkSourceBody env db eff source).1.2.sendResults = eff.sendResults ∨
            (checkSourceBody env db eff source).1.2.sendResults =
              eff.sendResults ++ [false])) ∨
          ((checkSourceBody env db eff source).1.1 =
             markVersionNotified (saveVersion db v source.id) v source.id ∧
           (checkSourceBody env db eff source).1.2.sendResults =
             eff.sendResults ++ [true]))))) := by
  cases hf : env.fetchResult source.url with
  | error e => left; simp [checkSourceBody, hf]
  | ok markdown =>
  cases hp : parseLatestVersion markdown with
  | none => left; simp [checkSourceBody, hf, hp]
  | some latest =>
  by_cases hlk : getLastKnownVersion db source.id = some latest.1
  · left; simp [checkSourceBody, hf, hp, hlk]
  · by_cases hg : getSetting (saveVersion db latest.1 source.id)
        "emailNotificationsEnabled" = some "true"
    case neg =>
      right
      refine ⟨markdown, latest.1, latest.2, rfl, hp, Or.inl ?_⟩
      simp only [checkSourceBody, hf, hp]
      rw [if_neg hlk, if_pos hg]
      simp
    case pos =>
      cases hk : env.geminiKey with
      | none =>
        right
        refine ⟨markdown, latest.1, latest.2, rfl, hp, Or.inl ?_⟩
        simp only [checkSourceBody, hf, hp, analyzeChangelog, hk]
        rw [if_neg hlk, if_neg (not_not_intro hg)]
        simp
      | some gkey =>
        cases ha : env.analyzeResult latest.2 with
        | error e =>
          right
          refine ⟨markdown, latest.1, latest.2, rfl, hp, Or.inl ?_⟩
          simp only [checkSourceBody, hf, hp, analyzeChangelog, hk, ha]
          rw [if_neg hlk, if_neg (not_not_intro hg)]
          simp
        | ok aopt =>
        cases aopt with
        | none =>
          right
          refine ⟨markdown, latest.1, latest.2, rfl, hp, Or.inl ?_⟩
          simp only [checkSourceBody, hf, hp, analyzeChangelog, hk, ha]
          rw [if_neg hlk, if_neg (not_not_intro hg)]
          simp
        | some a0 =>
          right
          refine ⟨markdown, latest.1, latest.2, rfl, hp, ?_⟩
          simp only [checkSourceBody, hf, hp, analyzeChangelog, hk, ha]
          rw [if_neg hlk, if_neg (not_not_intro hg)]
          cases ht : env.ttsResult a0.tldr
              (match getSetting (saveVersion db latest.1 source.id) "notificationVoice" with
               | some v => if v = "" then "Charon" else v
               | none => "Charon") with
          | error e =>
            refine Or.inl ?_
            simp only [generateTTSAudio, hk, ht]
            simp
          | ok pcmOpt =>
            by_cases hmail : env.resendKey = none ∨ env.notifyEmail = none
            · refine Or.inl ?_
              simp only [generateTTSAudio, hk, ht, sendEmailWithAttachment, if_pos hmail]
              cases pcmOpt <;> simp
            · cases pcmOpt with
              | none =>
                cases hs : env.sendResult (builtPayload source latest.1 a0 []) with
                | error e =>
                  simp only [builtPayload] at hs
                  refine Or.inr ⟨a0, [], ?_, Or.inl ⟨?_, Or.inl ?_⟩⟩ <;>
                    simp [generateTTSAudio, hk, ht, sendEmailWithAttachment,
                      if_neg hmail, builtPayload, hs]
                | ok b =>
                  cases b with
                  | false =>
                    simp only [builtPayload] at hs
                    refine Or.inr ⟨a0, [], ?_, Or.inl ⟨?_, Or.inr ?_⟩⟩ <;>
                      simp [generateTTSAudio, hk, ht, sendEmailWithAttachment,
                        if_neg hmail, builtPayload, hs]
                  | true =>
                    simp only [builtPayload] at hs
                    refine Or.inr ⟨a0, [], ?_, Or.inr ⟨?_, ?_⟩⟩ <;>
                      simp [generateTTSAudio, hk, ht, sendEmailWithAttachment,
                        if_neg hmail, builtPayload, hs]
              | some pcm =>
                cases hs : env.sendResult (builtPayload source latest.1 a0
                    [("claude-code-" ++ (source.name ++ " " ++ latest.1) ++ "-summary.wav",
                      pcmToWav pcm)]) with
                | error e =>
                  simp only [builtPayload] at hs
                  refine Or.inr ⟨a0,
                    [("claude-code-" ++ (source.name ++ " " ++ latest.1) ++ "-summary.wav",
                      pcmToWav pcm)], ?_, Or.inl ⟨?_, Or.inl ?_⟩⟩ <;>
                    simp [generateTTSAudio, hk, ht, sendEmailWithAttachment,
                      if_neg hmail, builtPayload, hs]
                | ok b =>
                  cases b with
                  | false =>
                    simp only [builtPayload] at hs
                    refine Or.inr ⟨a0,
                    [("claude-code-" ++ (source.name ++ " " ++ latest.1) ++ "-summary.wav",
                      pcmToWav pcm)], ?_, Or.inl ⟨?_, Or.inr ?_⟩⟩ <;>
                      simp [generateTTSAudio, hk, ht, sendEmailWithAttachment,
                        if_neg hmail, builtPayload, hs]
                  | true =>
                    simp only [builtPayload] at hs
                    refine Or.inr ⟨a0,
                    [("claude-code-" ++ (source.name ++ " " ++ latest.1) ++ "-summary.wav",
                      pcmToWav pcm)], ?_, Or.inr ⟨?_, ?_⟩⟩ <;>
                      simp [generateTTSAudio, hk, ht, sendEmailWithAttachment,
                        if_neg hmail, builtPayload, hs]

/-! ## C6: `notified` flips only on a successful send -/

/-- The (version, source) pairs currently marked notified in a history
table. -/
def notifiedPairs (h : List HistoryRow) : List (String × Option String) :=
  (h.filter (fun r => r.notified)).map (fun r => (r.version, r.source_id))

/-- The record step never marks anything notified. -/
theorem notifiedPairs_saveVersion (db : Db) (v s : String) :
    notifiedPairs (saveVersion db v s).history = notifiedPairs db.history := by
  unfold saveVersion
  dsimp only
  split
  · rfl
  · simp [notifiedPairs, List.filter_append]

/-- Unfolding `notifiedPairs` over a cons cell. -/
theorem notifiedPairs_cons (r : HistoryRow) (t : List HistoryRow) :
    notifiedPairs (r :: t) =
      if r.notified then (r.version, r.source_id) :: notifiedPairs t
      else notifiedPairs t := by
  simp only [notifiedPairs, List.filter_cons]
  split <;> simp_all

/-- The marking update adds at most the marked (version, source) pair. -/
theorem notifiedPairs_update_mem (h : List HistoryRow) (v s : String)
    (q : String × Option String)
    (hq : q ∈ notifiedPairs (h.map (fun r =>
      if r.version = v ∧ r.source_id = some s then { r with notified := true } else r))) :
    q ∈ notifiedPairs h ∨ q = (v, some s) := by
  induction h with
  | nil => simp [notifiedPairs] at hq
  | cons r t ih =>
    rw [List.map_cons, notifiedPairs_cons] at hq
    rw [notifiedPairs_cons]
    by_cases hc : r.version = v ∧ r.source_id = some s
    · rw [if_pos hc] at hq
      simp only at hq
      rcases List.mem_cons.mp hq with hq1 | hq2
      · exact Or.inr (by rw [hq1, hc.1, hc.2])
      · rcases ih hq2 with hql | hqr
        · refine Or.inl ?_
          split
          · exact List.mem_cons_of_mem _ hql
          · exact hql
        · exact Or.inr hqr
    · rw [if_neg hc] at hq
      by_cases hr : r.notified
      · rw [if_pos hr] at hq
        rw [if_pos hr]
        rcases List.mem_cons.mp hq with hq1 | hq2
        · exact Or.inl (hq1 ▸ List.mem_cons_self _ _)
        · rcases ih hq2 with hql | hqr
          · exact Or.inl (List.mem_cons_of_mem _ hql)
          · exact Or.inr hqr
      · rw [if_neg hr] at hq
        rw [if_neg hr]
        exact ih hq

/-- The marking update never unmarks a pair. -/
theorem notifiedPairs_update_mono (h : List HistoryRow) (v s : String)
    (q : String × Option String) (hq : q ∈ notifiedPairs h) :
    q ∈ notifiedPairs (h.map (fun r =>
      if r.version = v ∧ r.source_id = some s then { r with notified := true } else r)) := by
  induction h with
  | nil => simp [notifiedPairs] at hq
  | cons r t ih =>
    rw [notifiedPairs_cons] at hq
    rw [List.map_cons, notifiedPairs_cons]
    by_cases hc : r.version = v ∧ r.source_id = some s
    · rw [if_pos hc]
      simp only
      by_cases hr : r.notified
      · rw [if_pos hr] at hq
        rcases List.mem_cons.mp hq with hq1 | hq2
        · exact hq1 ▸ List.mem_cons_self _ _
        · exact List.mem_cons_of_mem _ (ih hq2)
      · rw [if_neg hr] at hq
        exact List.mem_cons_of_mem _ (ih hq)
    · rw [if_neg hc]
      by_cases hr : r.notified
      · rw [if_pos hr] at hq
        rw [if_pos hr]
        rcases List.mem_cons.mp hq with hq1 | hq2
        · exact hq1 ▸ List.mem_cons_self _ _
        · exact List.mem_cons_of_mem _ (ih hq2)
      · rw [if_neg hr] at hq
        rw [if_neg hr]
        exact ih hq

/-- Marking adds at most the marked (version, source) pair. -/
theorem notifiedPairs_mark_mem (db : Db) (v s : String)
    (q : String × Option String)
    (hq : q ∈ notifiedPairs (markVersionNotified db v s).history) :
    q ∈ notifiedPairs db.history ∨ q = (v, some s) :=
  notifiedPairs_update_mem db.history v s q (by simpa [markVersionNotified] using hq)

/-- Marking never unmarks. -/
theorem notifiedPairs_mark_mono (db : Db) (v s : String)
    (q : String × Option String) (hq : q ∈ notifiedPairs db.history) :
    q ∈ notifiedPairs (markVersionNotified db v s).history := by
  have h := notifiedPairs_update_mono db.history v s q hq
  simpa [markVersionNotified] using h

/-- C6: a (version, source) pair is marked notified by the cycle only when
it was already marked before, or the mail transport reported success for
exactly that pair within this cycle (the new send log is `[true]`); pairs
already marked stay marked; and when no successful send happens in the
cycle the notified set is unchanged. -/
theorem checkSource_notified_after_send (env : Env) (p : Db × Effects) (source : SourceRow) :
    (∀ q ∈ notifiedPairs (checkSourceForNewChangelog env p source).1.history,
       q ∈ notifiedPairs p.1.history ∨
       ((checkSourceForNewChangelog env p source).2.sendResults.drop
           p.2.sendResults.length = [true] ∧
        ∃ markdown v c,
          env.fetchResult source.url = Except.ok markdown ∧
          parseLatestVersion markdown = some (v, c) ∧
          q = (v, some source.id))) ∧
    (∀ q ∈ notifiedPairs p.1.history,
       q ∈ notifiedPairs (checkSourceForNewChangelog env p source).1.history) ∧
    (true ∉ (checkSourceForNewChangelog env p source).2.sendResults.drop
        p.2.sendResults.length →
      notifiedPairs (checkSourceForNewChangelog env p source).1.history =
        notifiedPairs p.1.history) := by
  have hm := checkSourceBody_master env p.1 p.2 source
  rcases hm with hA | ⟨markdown, v, c, hf, hp, hB⟩
  · unfold checkSourceForNewChangelog
    rw [hA]
    exact ⟨fun q hq => Or.inl hq, fun q hq => hq, fun _ => by simp⟩
  · rcases hB with ⟨hdb, _, hsend⟩ | ⟨a0, att, _, hB2⟩
    · unfold checkSourceForNewChangelog at *
      rw [hdb, hsend, notifiedPairs_saveVersion]
      exact ⟨fun q hq => Or.inl hq, fun q hq => hq, fun _ => by simp⟩
    · rcases hB2 with ⟨hdb, hsend | hsend⟩ | ⟨hdb, hsend⟩
      · unfold checkSourceForNewChangelog at *
        rw [hdb, hsend, notifiedPairs_saveVersion]
        exact ⟨fun q hq => Or.inl hq, fun q hq => hq, fun _ => by simp⟩
      · unfold checkSourceForNewChangelog at *
        rw [hdb, hsend, notifiedPairs_saveVersion]
        refine ⟨fun q hq => Or.inl hq, fun q hq => hq, fun _ => rfl⟩
      · unfold checkSourceForNewChangelog at *
        rw [hdb, hsend]
        refine ⟨?_, ?_, ?_⟩
        · intro q hq
          rcases notifiedPairs_mark_mem _ _ _ _ hq with hq' | hq'
          · rw [notifiedPairs_saveVersion] at hq'
            exact Or.inl hq'
          · refine Or.inr ⟨by rw [List.drop_left], markdown, v, c, hf, hp, hq'⟩
        · intro q hq
          apply notifiedPairs_mark_mono
          rw [notifiedPairs_saveVersion]
          exact hq
        · intro htrue
          exact absurd (by rw [List.drop_left]; exact List.mem_singleton_self true) htrue

/-- C6 witness: a cycle whose fetch faults leaves the notified set
unchanged. -/
theorem checkSource_notified_after_send_witness :
    notifiedPairs
        (checkSourceForNewChangelog envFetchFail (twoSourceDb, emptyEff) sourceA).1.history =
      notifiedPairs twoSourceDb.history := by
  exact (checkSource_notified_after_send envFetchFail (twoSourceDb, emptyEff) sourceA).2.2
    (by decide)

/-! ## C10: every notification email carries the fixed Claude Code branding -/

/-- Appending on the right preserves an exhibited infix decomposition. -/
theorem append_keeps_infix (t : String) (s u : String)
    (h : ∃ pre post, s = pre ++ t ++ post) :
    ∃ pre post, s ++ u = pre ++ t ++ post := by
  obtain ⟨pre, post, rfl⟩ := h
  exact ⟨pre, post ++ u, by simp [String.append_assoc]⟩


set_option maxRecDepth 10000 in
set_option maxHeartbeats 1000000 in
/-- The rendered email body always contains the literal heading
`Claude Code <version> Released` inside its `<h1>`. -/
theorem generateEmailHtml_h1 (a : ChangelogEmailRequest) :
    ∃ pre post, generateEmailHtml a =
      pre ++ (" Claude Code " ++ a.version ++ " Released</h1>") ++ post := by
  unfold generateEmailHtml
  dsimp only
  have hbase : ∃ pre post,
      (emailHtmlHead ++
        (if a.sentiment = "positive" then emojiPositive
         else if a.sentiment = "critical" then emojiWarning
         else emojiClipboard) ++ " Claude Code " ++ a.version ++
        " Released</h1>\n\n  <div class=\"tldr\">\n    <strong>TL;DR:</strong> " ++
        a.tldr ++ "\n  </div>\n" : String) =
      pre ++ (" Claude Code " ++ a.version ++ " Released</h1>") ++ post := by
    refine ⟨emailHtmlHead ++
      (if a.sentiment = "positive" then emojiPositive
       else if a.sentiment = "critical" then emojiWarning
       else emojiClipboard),
      "\n\n  <div class=\"tldr\">\n    <strong>TL;DR:</strong> " ++ a.tldr ++
        "\n  </div>\n", ?_⟩
    have hsplit :
        (" Released</h1>\n\n  <div class=\"tldr\">\n    <strong>TL;DR:</strong> " : String) =
        " Released</h1>" ++ "\n\n  <div class=\"tldr\">\n    <strong>TL;DR:</strong> " := rfl
    rw [hsplit]
    simp only [String.append_assoc]
  apply append_keeps_infix
  apply append_keeps_infix
  apply append_keeps_infix
  apply append_keeps_infix
  apply append_keeps_infix
  apply append_keeps_infix
  exact hbase

set_option maxRecDepth 10000 in
set_option maxHeartbeats 1000000 in
/-- C10: every email the cycle hands to the mail transport (beyond those
already in the log) has subject `<emoji> Claude Code <source name>
<version> Released` — the analysis version having been overwritten with the
source-qualified version — its HTML body contains the heading
`Claude Code <source name> <version> Released</h1>`, and in particular the
literal label `Claude Code` appears in the subject whatever the source. -/
theorem checkSource_email_branding (env : Env) (p : Db × Effects) (source : SourceRow)
    (payload : EmailPayload)
    (hmem : payload ∈
      (checkSourceForNewChangelog env p source).2.emails.drop p.2.emails.length) :
    ∃ markdown v c,
      env.fetchResult source.url = Except.ok markdown ∧
      parseLatestVersion markdown = some (v, c) ∧
      payload.subject =
        emojiNew ++ " Claude Code " ++ (source.name ++ " " ++ v) ++ " Released" ∧
      (∃ pre post, payload.html =
        pre ++ (" Claude Code " ++ (source.name ++ " " ++ v) ++ " Released</h1>") ++ post) ∧
      (∃ pre post, payload.subject = pre ++ "Claude Code" ++ post) := by
  have hm := checkSourceBody_master env p.1 p.2 source
  rcases hm with hA | ⟨markdown, v, c, hf, hp, hB⟩
  · unfold checkSourceForNewChangelog at hmem
    rw [hA] at hmem
    simp [List.drop_length] at hmem
  · rcases hB with ⟨_, hemails, _⟩ | ⟨a0, att, hemails, _⟩
    · unfold checkSourceForNewChangelog at hmem
      rw [hemails] at hmem
      simp [List.drop_length] at hmem
    · unfold checkSourceForNewChangelog at hmem
      rw [hemails, List.drop_left] at hmem
      have hpl : payload = builtPayload source v a0 att := by simpa using hmem
      refine ⟨markdown, v, c, hf, hp, ?_, ?_, ?_⟩
      · rw [hpl]; rfl
      · rw [hpl]
        have h := generateEmailHtml_h1 { a0 with version := source.name ++ " " ++ v }
        simpa [builtPayload] using h
      · rw [hpl]
        refine ⟨emojiNew ++ " ", " " ++ (source.name ++ " " ++ v) ++ " Released", ?_⟩
        simp only [builtPayload]
        have hsplit : (" Claude Code " : String) = " " ++ "Claude Code" ++ " " := rfl
        rw [hsplit]
        simp only [String.append_assoc]

/-- The analysis the witness environment returns. -/
def analysisW : ChangelogEmailRequest :=
  { version := "x", tldr := "t",
    categories :=
      { critical_breaking_changes := [], removals := [], major_features := [],
        important_fixes := [], new_slash_commands := [], terminal_improvements := [],
        api_changes := [] },
    action_items := [], sentiment := "neutral" }

/-- An environment in which every stage succeeds: the analyzer returns a
fixed analysis, synthesis yields nothing, and the transport accepts. -/
def envFull : Env :=
  { geminiKey := some "k", resendKey := some "rk", notifyEmail := some "mail@example.com",
    fetchResult := fun _ => Except.ok "## 1.0.0\nhello",
    analyzeResult := fun _ => Except.ok (some analysisW),
    ttsResult := fun _ _ => Except.ok none,
    sendResult := fun _ => Except.ok true }

/-- The database in which notifications are enabled. -/
def enabledDb : Db :=
  { twoSourceDb with settings := [("emailNotificationsEnabled", "true")] }

/-- The single email payload produced by a fully successful cycle. -/
def fullCyclePayload : EmailPayload :=
  builtPayload sourceA "1.0.0" analysisW []

/-- C10 witness: the fully successful cycle sends one email and the
branding facts hold for it. -/
theorem checkSource_email_branding_witness :
    ∃ markdown v c,
      envFull.fetchResult sourceA.url = Except.ok markdown ∧
      parseLatestVersion markdown = some (v, c) ∧
      fullCyclePayload.subject =
        emojiNew ++ " Claude Code " ++ (sourceA.name ++ " " ++ v) ++ " Released" ∧
      (∃ pre post, fullCyclePayload.html =
        pre ++ (" Claude Code " ++ (sourceA.name ++ " " ++ v) ++ " Released</h1>") ++ post) ∧
      (∃ pre post, fullCyclePayload.subject = pre ++ "Claude Code" ++ post) := by
  refine checkSource_email_branding envFull (enabledDb, emptyEff) sourceA fullCyclePayload ?_
  have h : (checkSourceForNewChangelog envFull (enabledDb, emptyEff) sourceA).2.emails.drop
      (emptyEff.emails.length) = [fullCyclePayload] := rfl
  rw [h]
  exact List.mem_singleton_self _

/-! ## C8: scheduler state re-derived from both settings -/

/-- The store settings determine `getSetting`. -/
theorem getSetting_congr (db1 db2 : Db) (h : db1.settings = db2.settings)
    (k : String) : getSetting db1 k = getSetting db2 k := by
  simp [getSetting, h]

/-- The store settings determine the parsed interval. -/
theorem readIntervalSetting_congr (db1 db2 : Db) (h : db1.settings = db2.settings) :
    readIntervalSetting db1 = readIntervalSetting db2 := by
  unfold readIntervalSetting
  rw [getSetting_congr db1 db2 h]

/-- One caught cycle never touches the settings table. -/
theorem checkSource_settings (env : Env) (p : Db × Effects) (source : SourceRow) :
    (checkSourceForNewChangelog env p source).1.settings = p.1.settings := by
  have hm := checkSourceBody_master env p.1 p.2 source
  unfold checkSourceForNewChangelog
  rcases hm with hA | ⟨md, v, c, _, _, hB⟩
  · rw [hA]
  · rcases hB with ⟨hdb, _, _⟩ | ⟨a0, att, _, hB2⟩
    · rw [hdb]; rfl
    · rcases hB2 with ⟨hdb, _⟩ | ⟨hdb, _⟩ <;> rw [hdb] <;> rfl

/-- The batch never touches the settings table. -/
theorem checkForNewChangelog_settings (env : Env) (p : Db × Effects) :
    (checkForNewChangelog env p).1.settings = p.1.settings := by
  unfold checkForNewChangelog
  cases h : getActiveSources p.1 with
  | nil => rfl
  | cons a t =>
    have hfold : ∀ (l : List SourceRow) (q : Db × Effects),
        (l.foldl (fun q source => checkSourceForNewChangelog env q source) q).1.settings =
          q.1.settings := by
      intro l
      induction l with
      | nil => intro q; rfl
      | cons b u ih =>
        intro q
        rw [List.foldl_cons, ih, checkSource_settings]
    exact hfold (a :: t) p

/-- Stopping does not touch the database. -/
theorem stopMonitoring_db (st : St) : (stopMonitoring st).db = st.db := by
  unfold stopMonitoring
  cases st.sched.cronJob <;> rfl

/-- Stopping always leaves no active trigger. -/
theorem stopMonitoring_cronJob (st : St) : (stopMonitoring st).sched.cronJob = none := by
  unfold stopMonitoring
  cases hj : st.sched.cronJob <;> simp [hj]

/-- Starting does not touch the settings table (the immediate check only
writes history and source bookkeeping). -/
theorem startMonitoring_settings (env : Env) (st : St) (ms : Int) :
    (startMonitoring env st ms).db.settings = st.db.settings := by
  unfold startMonitoring stopMonitoring
  cases hj : st.sched.cronJob <;> cases hc : intervalToCron ms <;>
    simp [hc, checkForNewChangelog_settings]

/-- When the interval translates to a trigger expression, starting installs
exactly that trigger, tearing any prior one down. -/
theorem startMonitoring_sched (env : Env) (st : St) (ms : Int) (e : String)
    (hc : intervalToCron ms = some e) :
    (startMonitoring env st ms).sched =
      { cronJob := some e, currentCronExpression := some e } := by
  unfold startMonitoring stopMonitoring
  cases hj : st.sched.cronJob <;> simp [hc]

/-- A positive interval always yields a trigger expression. -/
theorem intervalToCron_pos_isSome (ms : Int) (h : 0 < ms) :
    ∃ e, intervalToCron ms = some e := by
  unfold intervalToCron
  rw [if_neg (by omega)]
  repeat' split
  all_goals exact ⟨_, rfl⟩

/-- C8: after a write to either monitoring key, the scheduler state is
re-derived from the combination of both stored settings: it ends up running
with exactly the trigger derived from the stored interval — one trigger,
any prior one torn down first — iff `emailNotificationsEnabled` is the
string true and the parsed stored interval is positive; otherwise it ends
up stopped. -/
theorem postSettings_rederives_monitor (env : Env) (st : St) (key value : String)
    (hkey : key = "emailNotificationsEnabled" ∨ key = "notificationCheckInterval") :
    ((getSetting (postSettingsKey env st key value).db "emailNotificationsEnabled" =
          some "true" ∧
        0 < readIntervalSetting (postSettingsKey env st key value).db) →
      ((postSettingsKey env st key value).sched.cronJob =
          intervalToCron (readIntervalSetting (postSettingsKey env st key value).db) ∧
       (postSettingsKey env st key value).sched.currentCronExpression =
          intervalToCron (readIntervalSetting (postSettingsKey env st key value).db) ∧
       (postSettingsKey env st key value).sched.cronJob ≠ none)) ∧
    (¬ (getSetting (postSettingsKey env st key value).db "emailNotificationsEnabled" =
          some "true" ∧
        0 < readIntervalSetting (postSettingsKey env st key value).db) →
      (postSettingsKey env st key value).sched.cronJob = none) := by
  have hif : postSettingsKey env st key value =
      (if getSetting (setSetting st.db key value) "emailNotificationsEnabled" =
            some "true" ∧
          0 < readIntervalSetting (setSetting st.db key value) then
        startMonitoring env { st with db := setSetting st.db key value }
          (readIntervalSetting (setSetting st.db key value))
      else stopMonitoring { st with db := setSetting st.db key value }) := by
    unfold postSettingsKey
    rw [if_pos hkey]
  by_cases hcond : getSetting (setSetting st.db key value) "emailNotificationsEnabled" =
      some "true" ∧ 0 < readIntervalSetting (setSetting st.db key value)
  · rw [hif, if_pos hcond]
    obtain ⟨e, he⟩ := intervalToCron_pos_isSome _ hcond.2
    have hsched := startMonitoring_sched env
      { st with db := setSetting st.db key value }
      (readIntervalSetting (setSetting st.db key value)) e he
    have hset : (startMonitoring env { st with db := setSetting st.db key value }
        (readIntervalSetting (setSetting st.db key value))).db.settings =
        (setSetting st.db key value).settings :=
      startMonitoring_settings env _ _
    have hri : readIntervalSetting (startMonitoring env
        { st with db := setSetting st.db key value }
        (readIntervalSetting (setSetting st.db key value))).db =
        readIntervalSetting (setSetting st.db key value) :=
      readIntervalSetting_congr _ _ hset
    constructor
    · intro _
      rw [hsched, hri, he]
      exact ⟨rfl, rfl, by simp⟩
    · intro hcon
      exfalso
      apply hcon
      rw [hri]
      refine ⟨?_, hcond.2⟩
      rw [getSetting_congr _ _ hset]
      exact hcond.1
  · rw [hif, if_neg hcond]
    constructor
    · intro hyp
      exfalso
      apply hcond
      have hdbeq : (stopMonitoring { st with db := setSetting st.db key value }).db =
          setSetting st.db key value := stopMonitoring_db _
      rw [hdbeq] at hyp
      exact hyp
    · intro _
      exact stopMonitoring_cronJob _

/-- The idle server state. -/
def emptySt : St :=
  { db := emptyDb, eff := emptyEff, sched := { cronJob := none, currentCronExpression := none } }

/-- C8 witness: writing a non-true enabled flag leaves the scheduler
stopped. -/
theorem postSettings_rederives_monitor_witness :
    (postSettingsKey envFetchFail emptySt "emailNotificationsEnabled" "x").sched.cronJob =
      none := by
  exact (postSettings_rederives_monitor envFetchFail emptySt "emailNotificationsEnabled" "x"
    (Or.inl rfl)).2 (by decide)

end ChangelogMaster
